import Mathlib

/-!
Verification development for the go-relay-server repository.

The Go source is shallowly embedded: pure functions become Lean functions,
stateful code becomes explicit state passing, `time.Time` values become `Nat`
timestamps (seconds; `time.Minute` is `60`), Go strings become `List Char`
where character-level reasoning is needed.  Error returns become
`Option String` carrying the error message, `nil` error being `none`.
-/

namespace RelayServer

/-! ## Go `strings` package fragment (ASCII)

Models of the standard-library string helpers used by `server/handler.go`:
`strings.Fields`, `strings.ToUpper`, `strings.TrimPrefix`,
`strings.TrimSuffix`, `strings.Contains`, `strings.Split`.
Strings are `List Char`; `unicode.IsSpace` is modelled on its ASCII part
(the protocol commands involved are ASCII). -/

/-- The whitespace class used by Go `strings.Fields` (ASCII part of
`unicode.IsSpace`). -/
def isSpaceChar (c : Char) : Bool :=
  c = ' ' || c = '\t' || c = '\n' || c = '\x0b' || c = '\x0c' || c = '\r'

/-- Accumulator pass behind `fields`: `acc` is the (forward-order) current
token being built. -/
def fieldsAux : List Char → List Char → List (List Char)
  | [], acc => if acc = [] then [] else [acc]
  | c :: rest, acc =>
    if isSpaceChar c then
      if acc = [] then fieldsAux rest [] else acc :: fieldsAux rest []
    else
      fieldsAux rest (acc ++ [c])

/-- Go `strings.Fields s`: the whitespace-separated tokens of `s`. -/
def fields (s : List Char) : List (List Char) := fieldsAux s []

/-- Go `strings.ToUpper` on the ASCII fragment. -/
def toUpperL (s : List Char) : List Char := s.map Char.toUpper

/-- Go `strings.TrimPrefix s p`: drops `p` from the front of `s` when `p`
is a prefix, otherwise returns `s` unchanged. -/
def trimPrefixL (s p : List Char) : List Char :=
  if p.isPrefixOf s then s.drop p.length else s

/-- Go `strings.TrimSuffix s suf`: drops `suf` from the end of `s` when
`suf` is a suffix, otherwise returns `s` unchanged. -/
def trimSuffixL (s suf : List Char) : List Char :=
  if suf.isSuffixOf s then s.take (s.length - suf.length) else s

/-- Go `strings.Contains s sub` (case-sensitive substring test): `sub`
occurs as a contiguous run of `s`. -/
def containsSub (s sub : List Char) : Bool :=
  if sub.isPrefixOf s then true
  else
    match s with
    | [] => false
    | _ :: rest => containsSub rest sub

/-- Go `strings.Split` on a single separator character, accumulator pass. -/
def splitOnAux (sep : Char) : List Char → List Char → List (List Char)
  | [], acc => [acc]
  | c :: rest, acc =>
    if c = sep then acc :: splitOnAux sep rest []
    else splitOnAux sep rest (acc ++ [c])

/-- Go `strings.Split s (String sep)` for a one-character separator. -/
def splitOn (sep : Char) (s : List Char) : List (List Char) :=
  splitOnAux sep s []

/-! ## Go `net` package fragment: IPv4 parsing

Models `net.ParseIP` and `net.ParseCIDR` on their IPv4 dotted-quad
fragment (every address appearing in the spec's examples is IPv4).
An address is its 32-bit value as a `Nat`. -/

/-- One dotted-quad field: nonempty, all digits, no extra leading zero,
at most 3 digits, value at most 255 (as Go's IPv4 field parser). -/
def parseIPv4Field (s : List Char) : Option Nat :=
  if s = [] then none
  else if !(s.all Char.isDigit) then none
  else if 1 < s.length ∧ s.headD '0' = '0' then none
  else if 3 < s.length then none
  else
    let v := s.foldl (fun a c => a * 10 + (c.toNat - 48)) 0
    if v ≤ 255 then some v else none

/-- Go `net.ParseIP` restricted to IPv4 dotted-quad form; the result is
the 32-bit address value. -/
def parseIP (s : List Char) : Option Nat :=
  match splitOn '.' s with
  | [f1, f2, f3, f4] => do
    let a ← parseIPv4Field f1
    let b ← parseIPv4Field f2
    let c ← parseIPv4Field f3
    let d ← parseIPv4Field f4
    pure (a * 16777216 + b * 65536 + c * 256 + d)
  | _ => none

/-- Keep the top `bits` bits of a 32-bit address, zeroing the rest
(the network mask applied by `net.IPNet`). -/
def maskBits (v bits : Nat) : Nat := v / 2 ^ (32 - bits) * 2 ^ (32 - bits)

/-- Go `net.ParseCIDR` on IPv4: splits at `/`, parses address and prefix
length (0..32), and returns the masked network base with the prefix
length, as the `*net.IPNet` result does. -/
def parseCIDR (s : List Char) : Option (Nat × Nat) :=
  match splitOn '/' s with
  | [ipPart, bitsPart] => do
    let v ← parseIP ipPart
    let bits ← parseIPv4Field bitsPart
    if bits ≤ 32 then pure (maskBits v bits, bits) else none
  | _ => none

/-- Go `(*net.IPNet).Contains`: the address masked to the network's prefix
equals the network base. -/
def cidrContains (base bits ip : Nat) : Bool := maskBits ip bits = base

/-! ## PolicyFilter: `Server.isBlocked` (src/server/handler.go:179-218) -/

/-- `Server.isBlocked` from src/server/handler.go: if the target is not an
IP, each entry is tried as a substring of the target; if the target is an
IP, each entry is tried as an IP (exact equality), else as a CIDR
(containment), else as a substring, the first matching entry winning. -/
def isBlocked (blockList : List (List Char)) (target : List Char) : Bool :=
  match parseIP target with
  | none => blockList.any (fun blocked => containsSub target blocked)
  | some targetIP =>
    blockList.any (fun blocked =>
      match parseIP blocked with
      | some blockedIP => blockedIP = targetIP
      | none =>
        match parseCIDR blocked with
        | some (base, bits) => cidrContains base bits targetIP
        | none => containsSub target blocked)

/-- Transcribed from the spec's words (§4.3), for comparison with
`isBlocked`: per entry, (1) if both target and entry parse as IPs, exact
address equality; (2) else if the entry parses as a CIDR (and the target
has an IP), containment of the target's IP; (3) else case-sensitive
substring containment of the entry within the literal target string. -/
def entryMatchesSpec (target entry : List Char) : Bool :=
  match parseIP target, parseIP entry with
  | some targetIP, some entryIP => entryIP = targetIP
  | _, _ =>
    match parseIP target, parseCIDR entry with
    | some targetIP, some (base, bits) => cidrContains base bits targetIP
    | _, _ => containsSub target entry

/-- The spec's `IsBlocked`: first matching entry in list order wins, no
matching entry means not blocked. -/
def isBlockedSpec (blockList : List (List Char)) (target : List Char) : Bool :=
  blockList.any (entryMatchesSpec target)

/-! ## RateLimiter (src/server/handler.go:15-60)

The two Go maps with zero defaults become total functions from IP
strings; the mutex is dropped (one call is modelled at a time); the
current time is an explicit `now : Nat` in seconds, so `time.Minute`
is `60`.  Go's `now.Sub(lastTime)` can be negative, in which case it is
not `> time.Minute`; `Nat` truncated subtraction gives `0` there, which
is likewise not `> 60`. -/

structure RateLimitingConfig where
  requestsPerMinute : Nat
  exemptIPs : List String
deriving DecidableEq

structure RateLimiter where
  requests : String → Nat
  lastTime : String → Nat

/-- The fresh limiter built by `newRateLimiter`: both maps empty, i.e.
zero at every IP. -/
def newRateLimiter : RateLimiter := ⟨fun _ => 0, fun _ => 0⟩

/-- `rateLimiter.allow` from src/server/handler.go: exempt IPs pass;
otherwise the window is reset when more than 60 seconds have passed
since the IP's stored timestamp, then the count is checked against the
limit and incremented on success. -/
def allow (rl : RateLimiter) (ip : String) (config : RateLimitingConfig)
    (now : Nat) : RateLimiter × Bool :=
  if config.exemptIPs.contains ip then (rl, true)
  else
    let rl1 :=
      if 60 < now - rl.lastTime ip then
        { requests := Function.update rl.requests ip 0,
          lastTime := Function.update rl.lastTime ip now }
      else rl
    if config.requestsPerMinute ≤ rl1.requests ip then (rl1, false)
    else
      ({ rl1 with
          requests := Function.update rl1.requests ip (rl1.requests ip + 1) },
        true)

/-- Runs `allow` for one IP at each time in `ts` in order, collecting the
verdicts. -/
def allowRun (rl : RateLimiter) (ip : String) (config : RateLimitingConfig) :
    List Nat → RateLimiter × List Bool
  | [] => (rl, [])
  | t :: ts =>
    let (rl1, ok) := allow rl ip config t
    let (rl2, oks) := allowRun rl1 ip config ts
    (rl2, ok :: oks)

/-! ## Session state machine (src/server/handler.go:62-177)

One iteration of the `for` loop of `handleConnection` after the greeting
(the `CommandLoop`), and one iteration of the pre-upgrade loop of a
`starttls` listener (the `StartTlsGate`), as step functions on the
mutable `from`/`to` locals.  The DATA branch's dot-terminated body read
is a parameter (in Go it is read from the socket after the `354`), and
the outcome of the synchronous `relay.RelayEmail` call is the parameter
`relayOk` (the Go function returns nothing; delivery failure is only
logged).  `indexPanic` is the out-of-bounds evaluation of
`strings.Fields(line)[0]` on a line with no token. -/

structure Session where
  fromAddr : List Char
  toAddr : List Char
deriving DecidableEq

/-- The arguments the DATA branch passes to `relay.RelayEmail`. -/
structure RelayCall where
  data : List Char
  fromAddr : List Char
  toAddr : List Char
deriving DecidableEq

inductive Outcome where
  /-- The loop continues with updated locals, having written `resp`
  and invoked the relay iff `relayed` is `some`. -/
  | cont (s : Session) (resp : List String) (relayed : Option RelayCall)
  /-- QUIT: the handler returns after writing `resp`. -/
  | quit (resp : List String)
  /-- `strings.Fields(line)[0]` with no token: index out of range. -/
  | indexPanic
deriving DecidableEq

/-- The `switch cmd` body of the command loop, on the first token `tok`
of the line (src/server/handler.go:133-175).  `relayOk` is the outcome
of the synchronous relay attempt in the DATA branch; the Go call returns
nothing, so no branch of the dispatch consults it. -/
def dispatchCmd (blockList : List (List Char)) (s : Session)
    (line : List Char) (body : List Char) (relayOk : Bool)
    (tok : List Char) : Outcome :=
  let cmd := toUpperL tok
  if cmd = "HELO".toList ∨ cmd = "EHLO".toList then
    .cont s ["250 Hello"] none
  else if cmd = "MAIL".toList then
    let fromAddr := trimSuffixL (trimPrefixL line "MAIL FROM:<".toList) ">".toList
    .cont { s with fromAddr := fromAddr } ["250 OK"] none
  else if cmd = "RCPT".toList then
    let toAddr := trimSuffixL (trimPrefixL line "RCPT TO:<".toList) ">".toList
    if isBlocked blockList toAddr then
      .cont { s with toAddr := toAddr } ["550 Recipient blocked"] none
    else
      .cont { s with toAddr := toAddr } ["250 OK"] none
  else if cmd = "DATA".toList then
    .cont s ["354 Start mail input; end with <CRLF>.<CRLF>", "250 OK"]
      (some ⟨body, s.fromAddr, s.toAddr⟩)
  else if cmd = "QUIT".toList then
    .quit ["221 Bye"]
  else
    .cont s ["500 Unrecognized command"] none

/-- One iteration of the command loop of `Server.handleConnection`
(src/server/handler.go:126-176): `strings.Fields(line)[0]` is
uppercased and dispatched; with no token the indexing is out of
bounds. -/
def commandStep (blockList : List (List Char)) (s : Session)
    (line : List Char) (body : List Char) (relayOk : Bool) : Outcome :=
  match fields line with
  | [] => .indexPanic
  | tok :: _ => dispatchCmd blockList s line body relayOk tok

inductive GateOutcome where
  /-- STARTTLS received: `220 Ready to start TLS` is written, the
  connection is wrapped with the shared TLS material, and control moves
  to the command loop. -/
  | upgraded (resp : List String)
  /-- The pre-upgrade loop continues after writing `resp`. -/
  | stay (resp : List String)
  /-- QUIT: the handler returns after writing `resp`. -/
  | quit (resp : List String)
  /-- `strings.Fields(line)[0]` with no token: index out of range. -/
  | indexPanic
deriving DecidableEq

/-- The pre-upgrade `switch cmd` body on the first token
(src/server/handler.go:104-113). -/
def gateDispatch (tok : List Char) : GateOutcome :=
  let cmd := toUpperL tok
  if cmd = "HELO".toList ∨ cmd = "EHLO".toList then
    .stay ["250 Hello"]
  else if cmd = "QUIT".toList then
    .quit ["221 Bye"]
  else
    .stay ["500 Must issue STARTTLS first"]

/-- One iteration of the pre-STARTTLS loop of `Server.handleConnection`
on a `starttls` listener (src/server/handler.go:89-114): the whole
uppercased line is compared against `STARTTLS` first, then the first
token is dispatched. -/
def gateStep (line : List Char) : GateOutcome :=
  if toUpperL line = "STARTTLS".toList then
    .upgraded ["220 Ready to start TLS"]
  else
    match fields line with
    | [] => .indexPanic
    | tok :: _ => gateDispatch tok

/-! ## RetryQueue (src/queue/queue.go)

The mutex is dropped (operations are serialized), `time.Time` becomes a
`Nat` timestamp, `time.Now()` becomes an explicit `now` argument, and
the time-derived `generateID()` becomes an explicit `id` argument to
`Enqueue`.  The disk-persistence worker is I/O glue outside these
claims.  Error returns are `Option String` (`none` is Go `nil`). -/

structure QueueItem where
  id : Nat
  data : List Char
  attempts : Nat
  nextRetry : Nat
  createdAt : Nat
deriving DecidableEq

structure FailedItem where
  item : QueueItem
  error : String
  timestamp : Nat
  retries : Nat
deriving DecidableEq

structure Queue where
  items : List QueueItem
  failedItems : List FailedItem
  maxRetries : Nat
  retryInterval : Nat
  maxQueueSize : Nat
deriving DecidableEq

/-- `Queue.Enqueue` (src/queue/queue.go:71-89): fails with
"queue is full" when the pending count has reached `maxQueueSize`,
otherwise appends a fresh item with `Attempts = 0` and
`NextRetry = CreatedAt = now`. -/
def enqueue (q : Queue) (id : Nat) (data : List Char) (now : Nat) :
    Queue × Option String :=
  if q.maxQueueSize ≤ q.items.length then (q, some "queue is full")
  else
    ({ q with items := q.items ++ [⟨id, data, 0, now, now⟩] }, none)

/-- Removes the first element satisfying `p` from a list, returning it
with the remaining list — the `append (take i) (drop (i+1))` deletion
pattern used by `Dequeue` and `RequeueFailedItem`. -/
def extractFirst (p : α → Bool) : List α → Option (α × List α)
  | [] => none
  | a :: rest =>
    if p a then some (a, rest)
    else
      match extractFirst p rest with
      | some (x, rest') => some (x, a :: rest')
      | none => none

/-- `Queue.Dequeue` (src/queue/queue.go:106-119): removes and returns
the first pending item whose `NextRetry` is strictly before `now`; fails
with "no items ready for processing" otherwise. -/
def dequeue (q : Queue) (now : Nat) :
    Queue × Except String QueueItem :=
  match extractFirst (fun item => item.nextRetry < now) q.items with
  | some (item, rest) => ({ q with items := rest }, .ok item)
  | none => (q, .error "no items ready for processing")

/-- `Queue.Retry` (src/queue/queue.go:121-139): at `attempts ≥
maxRetries` the item moves to the failed ledger (with the error text,
the timestamp and the final attempt count) and the call errors;
otherwise attempts is incremented, `nextRetry` becomes
`now + retryInterval` and the item is re-appended to pending. -/
def retry (q : Queue) (item : QueueItem) (now : Nat) :
    Queue × Option String :=
  if q.maxRetries ≤ item.attempts then
    ({ q with
        failedItems :=
          q.failedItems ++ [⟨item, "max retries exceeded", now, item.attempts⟩] },
      some "max retries exceeded")
  else
    ({ q with
        items :=
          q.items ++
            [{ item with attempts := item.attempts + 1,
                         nextRetry := now + q.retryInterval }] },
      none)

/-- `Queue.GetFailedItems` (src/queue/queue.go:141-145). -/
def getFailedItems (q : Queue) : List FailedItem := q.failedItems

/-- `Queue.ClearFailedItems` (src/queue/queue.go:147-151). -/
def clearFailedItems (q : Queue) : Queue := { q with failedItems := [] }

/-- `Queue.RequeueFailedItem` (src/queue/queue.go:153-168): the first
failed item with the given id has its attempts reset to 0 and its
`nextRetry` set to `now`, moves back to pending and leaves the ledger;
with no such id the call errors. -/
def requeueFailedItem (q : Queue) (id : Nat) (now : Nat) :
    Queue × Option String :=
  match extractFirst (fun failedItem => failedItem.item.id = id) q.failedItems with
  | some (failedItem, rest) =>
    ({ q with
        items := q.items ++ [{ failedItem.item with attempts := 0, nextRetry := now }],
        failedItems := rest },
      none)
  | none => (q, some "failed item not found")

/-- The ids of the pending collection. -/
def pendingIDs (q : Queue) : List Nat := q.items.map QueueItem.id

/-- The ids of the failed ledger. -/
def failedIDs (q : Queue) : List Nat := q.failedItems.map (fun f => f.item.id)

/-- The membership invariant of the queue: ids are unique in each
collection and no id is in both. -/
def QueueInv (q : Queue) : Prop :=
  (pendingIDs q).Nodup ∧ (failedIDs q).Nodup ∧
    ∀ i, i ∈ pendingIDs q → i ∉ failedIDs q

/-! ## Server lifecycle (src/unnamed/part_006)

`ServerState` carries the fields of `Server` that `Start`/`Stop` mutate:
the `running` flag, the open-listener list and whether the `quit`
channel has been closed.  The environment of a `Start` call is the
listener config list, each spec carrying whether `createListener` would
succeed for it (`canOpen`), plus whether `tls.LoadX509KeyPair` would
succeed (`tlsLoadOk`).  The accept goroutines and the `WaitGroup`
barrier are concurrency glue outside these claims. -/

inductive Encryption where
  | plain
  | tls
  | starttls
deriving DecidableEq

structure ListenerSpec where
  encryption : Encryption
  canOpen : Bool
deriving DecidableEq

structure ServerState where
  running : Bool
  listeners : List ListenerSpec
  quitClosed : Bool
deriving DecidableEq

/-- The TLS-material load runs when some listener is `tls` or
`starttls` (src/unnamed/part_006:68-75). -/
def needsTLS (cfgs : List ListenerSpec) : Bool :=
  cfgs.any (fun c => c.encryption = .tls ∨ c.encryption = .starttls)

/-- `Server.Stop` (src/unnamed/part_006:145-164): no-op when not
running; otherwise clears the running flag, closes the quit channel,
closes every open listener and nils the listener list. -/
def stop (s : ServerState) : ServerState :=
  if !s.running then s
  else { running := false, listeners := [], quitClosed := true }

/-- The listener-opening loop of `Start` (src/unnamed/part_006:78-86):
each successfully created listener is appended; the first failure calls
`Stop` and returns the error. -/
def openLoop : List ListenerSpec → ServerState → ServerState × Option String
  | [], s => (s, none)
  | c :: rest, s =>
    if c.canOpen then openLoop rest { s with listeners := s.listeners ++ [c] }
    else (stop s, some "failed to start listener")

/-- `Server.Start` (src/unnamed/part_006:58-89): errors when already
running; otherwise sets `running := true`, loads TLS material when a
listener needs it (returning the load error on failure), then opens the
configured listeners. -/
def start (cfgs : List ListenerSpec) (tlsLoadOk : Bool) (s : ServerState) :
    ServerState × Option String :=
  if s.running then (s, some "server is already running")
  else
    let s1 := { s with running := true }
    if needsTLS cfgs ∧ ¬tlsLoadOk then
      (s1, some "failed to load TLS certificate")
    else openLoop cfgs s1

/-! ## Helper lemmas -/

theorem any_congr_pred {α : Type} (l : List α) (p q : α → Bool)
    (h : ∀ a, p a = q a) : l.any p = l.any q := by
  induction l with
  | nil => rfl
  | cons a rest ih => simp [List.any_cons, h a, ih]

theorem isPrefixOf_append (p s : List Char) : p.isPrefixOf (p ++ s) = true := by
  induction p with
  | nil => simp
  | cons c rest ih => simp [List.cons_append, List.isPrefixOf_cons₂, ih]

theorem trimPrefixL_append (p s : List Char) : trimPrefixL (p ++ s) p = s := by
  simp [trimPrefixL, isPrefixOf_append, List.drop_left]

theorem isSuffixOf_concat (r : List Char) (c : Char) :
    List.isSuffixOf [c] (r ++ [c]) = true := by
  simp [List.isSuffixOf, List.isPrefixOf]

theorem trimSuffixL_concat (r : List Char) (c : Char) :
    trimSuffixL (r ++ [c]) [c] = r := by
  simp [trimSuffixL, isSuffixOf_concat, List.take_left]

theorem extractFirst_perm {α : Type} (p : α → Bool) (l : List α) :
    ∀ (x : α) (l' : List α),
      extractFirst p l = some (x, l') → l.Perm (x :: l') := by
  induction l with
  | nil => intro x l' h; simp [extractFirst] at h
  | cons a rest ih =>
    intro x l' h
    rw [extractFirst] at h
    by_cases hp : p a
    · rw [if_pos hp] at h
      simp only [Option.some.injEq, Prod.mk.injEq] at h
      obtain ⟨rfl, rfl⟩ := h
      exact List.Perm.refl _
    · rw [if_neg hp] at h
      cases hrec : extractFirst p rest with
      | none => rw [hrec] at h; simp at h
      | some pr =>
        obtain ⟨y, rest'⟩ := pr
        rw [hrec] at h
        simp only [Option.some.injEq, Prod.mk.injEq] at h
        obtain ⟨rfl, rfl⟩ := h
        exact ((ih y rest' hrec).cons a).trans (List.Perm.swap y a rest')

theorem extractFirst_prop {α : Type} (p : α → Bool) (l : List α) :
    ∀ (x : α) (l' : List α),
      extractFirst p l = some (x, l') → p x = true := by
  induction l with
  | nil => intro x l' h; simp [extractFirst] at h
  | cons a rest ih =>
    intro x l' h
    rw [extractFirst] at h
    by_cases hp : p a
    · rw [if_pos hp] at h
      simp only [Option.some.injEq, Prod.mk.injEq] at h
      obtain ⟨rfl, rfl⟩ := h
      exact hp
    · rw [if_neg hp] at h
      cases hrec : extractFirst p rest with
      | none => rw [hrec] at h; simp at h
      | some pr =>
        obtain ⟨y, rest'⟩ := pr
        rw [hrec] at h
        simp only [Option.some.injEq, Prod.mk.injEq] at h
        obtain ⟨rfl, rfl⟩ := h
        exact ih y rest' hrec

theorem commandStep_eq_dispatch (blockList : List (List Char)) (s : Session)
    (line body : List Char) (relayOk : Bool) (tok : List Char)
    (rest : List (List Char)) (h : fields line = tok :: rest) :
    commandStep blockList s line body relayOk =
      dispatchCmd blockList s line body relayOk tok := by
  unfold commandStep
  rw [h]

theorem gateStep_eq_dispatch (line tok : List Char) (rest : List (List Char))
    (hne : toUpperL line ≠ "STARTTLS".toList) (h : fields line = tok :: rest) :
    gateStep line = gateDispatch tok := by
  unfold gateStep
  rw [if_neg hne, h]

theorem dispatchCmd_data (blockList : List (List Char)) (s : Session)
    (line body : List Char) (relayOk : Bool) (tok : List Char)
    (h : toUpperL tok = "DATA".toList) :
    dispatchCmd blockList s line body relayOk tok =
      .cont s ["354 Start mail input; end with <CRLF>.<CRLF>", "250 OK"]
        (some ⟨body, s.fromAddr, s.toAddr⟩) := by
  simp [dispatchCmd, h]

theorem trimSuffixL_gt (r : List Char) :
    trimSuffixL (r ++ ">".toList) ">".toList = r :=
  trimSuffixL_concat r '>'

/-! ## Claim theorems -/

/-- C6: `Enqueue` fails with the queue-full error exactly when the
pending count has reached the configured maximum; otherwise it appends a
new item with `attempts = 0` and `nextRetry = now` and succeeds; with
`max_queue_size = 2`, three successive `Enqueue` calls succeed, succeed,
then fail. -/
theorem c6_enqueue_queue_full :
    (∀ (q : Queue) (id : Nat) (data : List Char) (now : Nat),
      (enqueue q id data now).2.isSome ↔ q.maxQueueSize ≤ q.items.length) ∧
    (∀ (q : Queue) (id : Nat) (data : List Char) (now : Nat),
      q.maxQueueSize ≤ q.items.length →
        enqueue q id data now = (q, some "queue is full")) ∧
    (∀ (q : Queue) (id : Nat) (data : List Char) (now : Nat),
      q.items.length < q.maxQueueSize →
        enqueue q id data now =
          ({ q with items := q.items ++ [⟨id, data, 0, now, now⟩] }, none)) ∧
    ((enqueue ⟨[], [], 3, 300, 2⟩ 1 [] 10).2 = none ∧
     (enqueue (enqueue ⟨[], [], 3, 300, 2⟩ 1 [] 10).1 2 [] 11).2 = none ∧
     (enqueue (enqueue (enqueue ⟨[], [], 3, 300, 2⟩ 1 [] 10).1 2 [] 11).1
        3 [] 12).2 = some "queue is full") := by
  refine ⟨?_, ?_, ?_, by decide⟩
  · intro q id data now
    by_cases h : q.maxQueueSize ≤ q.items.length <;> simp [enqueue, h]
  · intro q id data now h
    simp [enqueue, h]
  · intro q id data now h
    simp [enqueue, Nat.not_le.mpr h]

theorem c6_enqueue_queue_full_witness :
    enqueue ⟨[⟨1, [], 0, 0, 0⟩], [], 0, 0, 1⟩ 2 [] 5 =
      (⟨[⟨1, [], 0, 0, 0⟩], [], 0, 0, 1⟩, some "queue is full") ∧
    enqueue ⟨[], [], 0, 0, 1⟩ 7 [] 5 =
      (⟨[⟨7, [], 0, 5, 5⟩], [], 0, 0, 1⟩, none) :=
  ⟨c6_enqueue_queue_full.2.1 _ 2 [] 5 (by decide),
   c6_enqueue_queue_full.2.2.1 _ 7 [] 5 (by decide)⟩

/-- C10 evaluation: an empty line reaches the out-of-bounds indexing
`strings.Fields(line)[0]` in both the pre-STARTTLS loop and the command
loop; the dispatch is not total and the handler aborts rather than
answering `500 Unrecognized command`. -/
theorem c10_empty_line_hits_index_panic :
    fields [] = [] ∧
    gateStep [] = .indexPanic ∧
    commandStep [] ⟨[], []⟩ [] [] true = .indexPanic ∧
    commandStep [] ⟨[], []⟩ [' ', '\t'] [] true = .indexPanic := by
  refine ⟨rfl, rfl, rfl, rfl⟩

/-- C5: `Retry` on an item with `attempts ≥ maxRetries` moves it to the
failed ledger with the error text and final attempt count and errors;
on `attempts < maxRetries` it increments attempts, sets
`nextRetry = now + retryInterval`, re-appends to pending and succeeds;
with `max_retries = 2` an item retried three times ends in the failed
ledger with `retries = 2` and absent from pending, and
`RequeueFailedItem` moves it back with `attempts = 0` and
`nextRetry = now`. -/
theorem c5_retry_exhaustion :
    (∀ (q : Queue) (item : QueueItem) (now : Nat),
      q.maxRetries ≤ item.attempts →
        retry q item now =
          ({ q with failedItems := q.failedItems ++
              [⟨item, "max retries exceeded", now, item.attempts⟩] },
            some "max retries exceeded")) ∧
    (∀ (q : Queue) (item : QueueItem) (now : Nat),
      item.attempts < q.maxRetries →
        retry q item now =
          ({ q with items := q.items ++
              [{ item with attempts := item.attempts + 1,
                           nextRetry := now + q.retryInterval }] }, none)) ∧
    (enqueue ⟨[], [], 2, 10, 5⟩ 7 ['x'] 0 =
      (⟨[⟨7, ['x'], 0, 0, 0⟩], [], 2, 10, 5⟩, none) ∧
     dequeue ⟨[⟨7, ['x'], 0, 0, 0⟩], [], 2, 10, 5⟩ 1 =
      (⟨[], [], 2, 10, 5⟩, .ok ⟨7, ['x'], 0, 0, 0⟩) ∧
     retry ⟨[], [], 2, 10, 5⟩ ⟨7, ['x'], 0, 0, 0⟩ 1 =
      (⟨[⟨7, ['x'], 1, 11, 0⟩], [], 2, 10, 5⟩, none) ∧
     dequeue ⟨[⟨7, ['x'], 1, 11, 0⟩], [], 2, 10, 5⟩ 20 =
      (⟨[], [], 2, 10, 5⟩, .ok ⟨7, ['x'], 1, 11, 0⟩) ∧
     retry ⟨[], [], 2, 10, 5⟩ ⟨7, ['x'], 1, 11, 0⟩ 20 =
      (⟨[⟨7, ['x'], 2, 30, 0⟩], [], 2, 10, 5⟩, none) ∧
     dequeue ⟨[⟨7, ['x'], 2, 30, 0⟩], [], 2, 10, 5⟩ 40 =
      (⟨[], [], 2, 10, 5⟩, .ok ⟨7, ['x'], 2, 30, 0⟩) ∧
     retry ⟨[], [], 2, 10, 5⟩ ⟨7, ['x'], 2, 30, 0⟩ 40 =
      (⟨[], [⟨⟨7, ['x'], 2, 30, 0⟩, "max retries exceeded", 40, 2⟩], 2, 10, 5⟩,
        some "max retries exceeded") ∧
     requeueFailedItem
        ⟨[], [⟨⟨7, ['x'], 2, 30, 0⟩, "max retries exceeded", 40, 2⟩], 2, 10, 5⟩ 7 50 =
      (⟨[⟨7, ['x'], 0, 50, 0⟩], [], 2, 10, 5⟩, none)) := by
  refine ⟨?_, ?_, rfl, rfl, rfl, rfl, rfl, rfl, rfl, rfl⟩
  · intro q item now h
    simp [retry, h]
  · intro q item now h
    simp [retry, Nat.not_le.mpr h]

theorem c5_retry_exhaustion_witness :
    retry ⟨[], [], 2, 10, 5⟩ ⟨3, [], 2, 0, 0⟩ 9 =
      (⟨[], [⟨⟨3, [], 2, 0, 0⟩, "max retries exceeded", 9, 2⟩], 2, 10, 5⟩,
        some "max retries exceeded") ∧
    retry ⟨[], [], 2, 10, 5⟩ ⟨4, [], 1, 0, 0⟩ 9 =
      (⟨[⟨4, [], 2, 19, 0⟩], [], 2, 10, 5⟩, none) :=
  ⟨c5_retry_exhaustion.1 _ ⟨3, [], 2, 0, 0⟩ 9 (by decide),
   c5_retry_exhaustion.2.1 _ ⟨4, [], 1, 0, 0⟩ 9 (by decide)⟩

/-- C7: on a starttls listener, before the TLS upgrade, HELO/EHLO is
answered 250, QUIT terminates the session, the literal STARTTLS command
is answered `220 Ready to start TLS` and wraps the connection, and every
other command is answered `500 Must issue STARTTLS first` with the
session remaining in the pre-upgrade loop — concretely, HELO then DATA
(without STARTTLS) gets `250 Hello` then the 500 reply, both staying
connected. -/
theorem c7_starttls_gate :
    (∀ line : List Char, toUpperL line = "STARTTLS".toList →
      gateStep line = .upgraded ["220 Ready to start TLS"]) ∧
    (∀ (line tok : List Char) (rest : List (List Char)),
      toUpperL line ≠ "STARTTLS".toList → fields line = tok :: rest →
      ((toUpperL tok = "HELO".toList ∨ toUpperL tok = "EHLO".toList) →
        gateStep line = .stay ["250 Hello"]) ∧
      (toUpperL tok = "QUIT".toList → gateStep line = .quit ["221 Bye"]) ∧
      (toUpperL tok ≠ "HELO".toList → toUpperL tok ≠ "EHLO".toList →
        toUpperL tok ≠ "QUIT".toList →
        gateStep line = .stay ["500 Must issue STARTTLS first"])) ∧
    (gateStep "HELO".toList = .stay ["250 Hello"] ∧
     gateStep "DATA".toList = .stay ["500 Must issue STARTTLS first"] ∧
     gateStep "STARTTLS".toList = .upgraded ["220 Ready to start TLS"] ∧
     gateStep "QUIT".toList = .quit ["221 Bye"]) := by
  refine ⟨?_, ?_, by decide⟩
  · intro line h
    unfold gateStep
    rw [if_pos h]
  · intro line tok rest hne hf
    have hstep := gateStep_eq_dispatch line tok rest hne hf
    refine ⟨?_, ?_, ?_⟩
    · rintro (h1 | h1) <;> rw [hstep] <;> simp [gateDispatch, h1]
    · intro h1
      rw [hstep]
      simp [gateDispatch, h1]
    · intro h1 h2 h3
      rw [hstep]
      simp only [gateDispatch]
      rw [if_neg (not_or.mpr ⟨h1, h2⟩), if_neg h3]

theorem c7_starttls_gate_witness :
    gateStep ['D', 'A', 'T', 'A', ' ', 'x'] =
      .stay ["500 Must issue STARTTLS first"] ∧
    gateStep ['e', 'h', 'l', 'o'] = .stay ["250 Hello"] ∧
    gateStep ['s', 't', 'a', 'r', 't', 't', 'l', 's'] =
      .upgraded ["220 Ready to start TLS"] ∧
    gateStep ['q', 'u', 'i', 't'] = .quit ["221 Bye"] :=
  ⟨((c7_starttls_gate.2.1 ['D', 'A', 'T', 'A', ' ', 'x'] ['D', 'A', 'T', 'A'] [['x']]
      (by decide) (by decide)).2.2 (by decide) (by decide) (by decide)),
   ((c7_starttls_gate.2.1 ['e', 'h', 'l', 'o'] ['e', 'h', 'l', 'o'] []
      (by decide) (by decide)).1 (.inr (by decide))),
   (c7_starttls_gate.1 ['s', 't', 'a', 'r', 't', 't', 'l', 's'] (by decide)),
   ((c7_starttls_gate.2.1 ['q', 'u', 'i', 't'] ['q', 'u', 'i', 't'] []
      (by decide) (by decide)).2.1 (by decide))⟩

/-- C8: whenever the command loop handles DATA and the body read
completes, the replies are `354 ...` then `250 OK`, for every value of
the relay outcome `relayOk` — the success or failure of the synchronous
delivery attempt never reaches the protocol response. -/
theorem c8_data_acknowledged_unconditionally :
    ∀ (blockList : List (List Char)) (s : Session) (line tok : List Char)
      (rest : List (List Char)) (body : List Char) (relayOk : Bool),
      fields line = tok :: rest → toUpperL tok = "DATA".toList →
      commandStep blockList s line body relayOk =
        .cont s ["354 Start mail input; end with <CRLF>.<CRLF>", "250 OK"]
          (some ⟨body, s.fromAddr, s.toAddr⟩) := by
  intro blockList s line tok rest body relayOk hf htok
  rw [commandStep_eq_dispatch blockList s line body relayOk tok rest hf,
    dispatchCmd_data blockList s line body relayOk tok htok]

theorem c8_data_acknowledged_unconditionally_witness :
    commandStep [] ⟨['a'], ['b']⟩ ['D', 'A', 'T', 'A'] ['z'] false =
      .cont ⟨['a'], ['b']⟩
        ["354 Start mail input; end with <CRLF>.<CRLF>", "250 OK"]
        (some ⟨['z'], ['a'], ['b']⟩) ∧
    commandStep [] ⟨['a'], ['b']⟩ ['D', 'A', 'T', 'A'] ['z'] true =
      .cont ⟨['a'], ['b']⟩
        ["354 Start mail input; end with <CRLF>.<CRLF>", "250 OK"]
        (some ⟨['z'], ['a'], ['b']⟩) :=
  ⟨c8_data_acknowledged_unconditionally [] ⟨['a'], ['b']⟩ ['D', 'A', 'T', 'A']
      ['D', 'A', 'T', 'A'] [] ['z'] false (by decide) (by decide),
   c8_data_acknowledged_unconditionally [] ⟨['a'], ['b']⟩ ['D', 'A', 'T', 'A']
      ['D', 'A', 'T', 'A'] [] ['z'] true (by decide) (by decide)⟩

/-- C9: `RCPT TO:<r>` with `r` matching the block list is answered
`550 Recipient blocked`, yet the envelope recipient is still overwritten
with `r`; a following DATA with no intervening accepted RCPT hands the
message to the relay addressed to the blocked `r`. -/
theorem c9_blocked_rcpt_still_sets_recipient :
    ∀ (blockList : List (List Char)) (s : Session) (r body : List Char)
      (relayOk : Bool),
      isBlocked blockList r = true →
      commandStep blockList s ("RCPT TO:<".toList ++ (r ++ ">".toList))
          body relayOk =
        .cont { s with toAddr := r } ["550 Recipient blocked"] none ∧
      commandStep blockList { s with toAddr := r } "DATA".toList body relayOk =
        .cont { s with toAddr := r }
          ["354 Start mail input; end with <CRLF>.<CRLF>", "250 OK"]
          (some ⟨body, s.fromAddr, r⟩) := by
  intro blockList s r body relayOk hblocked
  constructor
  · rw [commandStep_eq_dispatch blockList s
      ("RCPT TO:<".toList ++ (r ++ ">".toList)) body relayOk "RCPT".toList
      (fieldsAux ("TO:<".toList ++ (r ++ ">".toList)) []) rfl]
    simp only [dispatchCmd]
    rw [if_neg (by decide), if_neg (by decide), if_pos (by decide)]
    rw [trimPrefixL_append "RCPT TO:<".toList (r ++ ">".toList), trimSuffixL_gt r]
    rw [if_pos hblocked]
  · rw [commandStep_eq_dispatch blockList { s with toAddr := r } "DATA".toList
      body relayOk "DATA".toList [] rfl,
      dispatchCmd_data _ _ _ body relayOk _ (by decide)]

theorem c9_blocked_rcpt_still_sets_recipient_witness :
    commandStep ["spamdomain.com".toList] ⟨['a'], []⟩
        ("RCPT TO:<".toList ++ ("user@spamdomain.com".toList ++ ">".toList))
        ['z'] true =
      .cont ⟨['a'], "user@spamdomain.com".toList⟩ ["550 Recipient blocked"] none ∧
    commandStep ["spamdomain.com".toList] ⟨['a'], "user@spamdomain.com".toList⟩
        "DATA".toList ['z'] true =
      .cont ⟨['a'], "user@spamdomain.com".toList⟩
        ["354 Start mail input; end with <CRLF>.<CRLF>", "250 OK"]
        (some ⟨['z'], ['a'], "user@spamdomain.com".toList⟩) :=
  c9_blocked_rcpt_still_sets_recipient ["spamdomain.com".toList] ⟨['a'], []⟩
    "user@spamdomain.com".toList ['z'] true (by decide)

/-- C4: `isBlocked` agrees with the spec's per-entry evaluation order —
first match in list order wins; per entry, IP equality when both target
and entry parse as IPs, else CIDR containment of the target's IP, else
case-sensitive substring containment — and the two concrete examples:
`10.0.0.5` is blocked by `10.0.0.0/24` and not by `10.0.1.0/24`. -/
theorem c4_isBlocked_matches_spec :
    (∀ (blockList : List (List Char)) (target : List Char),
      isBlocked blockList target = isBlockedSpec blockList target) ∧
    isBlocked ["10.0.0.0/24".toList] "10.0.0.5".toList = true ∧
    isBlocked ["10.0.1.0/24".toList] "10.0.0.5".toList = false := by
  refine ⟨?_, by decide, by decide⟩
  intro bl t
  unfold isBlocked isBlockedSpec
  cases hp : parseIP t with
  | none =>
    apply any_congr_pred
    intro e
    cases hq : parseIP e <;> cases hr : parseCIDR e <;>
      simp [entryMatchesSpec, hp, hq, hr]
  | some tip =>
    apply any_congr_pred
    intro e
    cases hq : parseIP e <;> cases hr : parseCIDR e <;>
      simp [entryMatchesSpec, hp, hq, hr]

theorem allow_after_gap (rl : RateLimiter) (ip : String)
    (config : RateLimitingConfig) (now : Nat)
    (hex : config.exemptIPs.contains ip = false)
    (hgap : 60 < now - rl.lastTime ip)
    (hlim : 1 ≤ config.requestsPerMinute) :
    allow rl ip config now =
      ({ requests := Function.update rl.requests ip 1,
         lastTime := Function.update rl.lastTime ip now }, true) := by
  have hmem : ip ∉ config.exemptIPs := by simpa using hex
  have hz : ¬ config.requestsPerMinute ≤ 0 := by omega
  simp [allow, hmem, hgap, Function.update_same, hz, Function.update_idem]

theorem allow_in_window (rl : RateLimiter) (ip : String)
    (config : RateLimitingConfig) (now : Nat)
    (hex : config.exemptIPs.contains ip = false)
    (hgap : ¬ 60 < now - rl.lastTime ip)
    (hcnt : rl.requests ip < config.requestsPerMinute) :
    allow rl ip config now =
      ({ rl with
          requests := Function.update rl.requests ip (rl.requests ip + 1) },
        true) := by
  have hmem : ip ∉ config.exemptIPs := by simpa using hex
  simp [allow, hmem, hgap, Nat.not_le.mpr hcnt]

theorem allow_denied_at_limit (rl : RateLimiter) (ip : String)
    (config : RateLimitingConfig) (now : Nat)
    (hex : config.exemptIPs.contains ip = false)
    (hgap : ¬ 60 < now - rl.lastTime ip)
    (hcnt : config.requestsPerMinute ≤ rl.requests ip) :
    allow rl ip config now = (rl, false) := by
  have hmem : ip ∉ config.exemptIPs := by simpa using hex
  simp [allow, hmem, hgap, hcnt]

theorem allowRun_all_allowed (config : RateLimitingConfig) (ip : String)
    (hex : config.exemptIPs.contains ip = false) (ts : List Nat) :
    ∀ (rl : RateLimiter) (t0 : Nat),
      rl.lastTime ip = t0 →
      (∀ t ∈ ts, t - t0 ≤ 60) →
      rl.requests ip + ts.length ≤ config.requestsPerMinute →
      ∃ rl' : RateLimiter,
        allowRun rl ip config ts = (rl', List.replicate ts.length true) ∧
        rl'.requests ip = rl.requests ip + ts.length ∧
        rl'.lastTime ip = t0 := by
  induction ts with
  | nil =>
    intro rl t0 hlast _ _
    exact ⟨rl, rfl, by simp, hlast⟩
  | cons t ts ih =>
    intro rl t0 hlast hin hcap
    have hgap : ¬ 60 < t - rl.lastTime ip := by
      rw [hlast]
      have := hin t (List.mem_cons_self ..)
      omega
    have hcnt : rl.requests ip < config.requestsPerMinute := by
      simp only [List.length_cons] at hcap
      omega
    have hstep := allow_in_window rl ip config t hex hgap hcnt
    obtain ⟨rl', hrun, hreq, hlastt⟩ :=
      ih { rl with requests := Function.update rl.requests ip (rl.requests ip + 1) }
        t0 hlast (fun u hu => hin u (List.mem_cons_of_mem _ hu))
        (by
          show Function.update rl.requests ip (rl.requests ip + 1) ip +
              ts.length ≤ config.requestsPerMinute
          rw [Function.update_same]
          simp only [List.length_cons] at hcap
          omega)
    refine ⟨rl', ?_, ?_, hlastt⟩
    · simp [allowRun, hstep, hrun, List.replicate_succ]
    · rw [hreq]
      show Function.update rl.requests ip (rl.requests ip + 1) ip + ts.length =
        rl.requests ip + (t :: ts).length
      rw [Function.update_same]
      simp only [List.length_cons]
      omega

/-- C3 (amended): for an IP not in the exempt set, starting fresh, after
exactly `requests_per_minute` allowed calls within 60 seconds of the
first, the next call inside the window is denied; and after a gap of
MORE than 60 seconds since the stored reset timestamp the counter resets
and the next call is allowed (the source resets only on a strictly
greater-than-60s gap, so a gap of exactly 60 seconds does not reset). -/
theorem c3_rate_limiter_window :
    (∀ (config : RateLimitingConfig) (ip : String) (t0 : Nat) (ts : List Nat)
      (tNext : Nat),
      config.exemptIPs.contains ip = false →
      60 < t0 →
      ts.length + 1 = config.requestsPerMinute →
      (∀ t ∈ ts, t - t0 ≤ 60) →
      tNext - t0 ≤ 60 →
      ∃ rl' : RateLimiter,
        allowRun newRateLimiter ip config (t0 :: ts) =
          (rl', List.replicate config.requestsPerMinute true) ∧
        (allow rl' ip config tNext).2 = false) ∧
    (∀ (config : RateLimitingConfig) (ip : String) (rl : RateLimiter)
      (now : Nat),
      config.exemptIPs.contains ip = false →
      1 ≤ config.requestsPerMinute →
      60 < now - rl.lastTime ip →
      (allow rl ip config now).2 = true ∧
      (allow rl ip config now).1.requests ip = 1 ∧
      (allow rl ip config now).1.lastTime ip = now) := by
  constructor
  · intro config ip t0 ts tNext hex ht0 hlen hin hnext
    have hlim : 1 ≤ config.requestsPerMinute := by omega
    have h1 := allow_after_gap newRateLimiter ip config t0 hex
      (by simp [newRateLimiter]; omega) hlim
    obtain ⟨rl', hrun, hreq, hlast⟩ :=
      allowRun_all_allowed config ip hex ts
        { requests := Function.update newRateLimiter.requests ip 1,
          lastTime := Function.update newRateLimiter.lastTime ip t0 }
        t0
        (by show Function.update newRateLimiter.lastTime ip t0 ip = t0
            rw [Function.update_same])
        hin
        (by show Function.update newRateLimiter.requests ip 1 ip + ts.length ≤
              config.requestsPerMinute
            rw [Function.update_same]
            omega)
    refine ⟨rl', ?_, ?_⟩
    · rw [← hlen, List.replicate_succ]
      simp only [allowRun]
      rw [h1]
      rw [hrun]
    · have hgap : ¬ 60 < tNext - rl'.lastTime ip := by rw [hlast]; omega
      have hcnt : config.requestsPerMinute ≤ rl'.requests ip := by
        rw [hreq]
        show Function.update newRateLimiter.requests ip 1 ip + ts.length ≥
          config.requestsPerMinute
        rw [Function.update_same]
        omega
      rw [allow_denied_at_limit rl' ip config tNext hex hgap hcnt]
  · intro config ip rl now hex hlim hgap
    rw [allow_after_gap rl ip config now hex hgap hlim]
    simp [Function.update_same]

theorem c3_rate_limiter_window_witness :
    (∃ rl' : RateLimiter,
      allowRun newRateLimiter "1.2.3.4" ⟨2, []⟩ [100, 110] =
        (rl', List.replicate 2 true) ∧
      (allow rl' "1.2.3.4" ⟨2, []⟩ 150).2 = false) ∧
    ((allow newRateLimiter "1.2.3.4" ⟨2, []⟩ 100).2 = true ∧
     (allow newRateLimiter "1.2.3.4" ⟨2, []⟩ 100).1.requests "1.2.3.4" = 1 ∧
     (allow newRateLimiter "1.2.3.4" ⟨2, []⟩ 100).1.lastTime "1.2.3.4" = 100) :=
  ⟨c3_rate_limiter_window.1 ⟨2, []⟩ "1.2.3.4" 100 [110] 150 (by decide)
      (by decide) (by decide) (by decide) (by decide),
   c3_rate_limiter_window.2 ⟨2, []⟩ "1.2.3.4" newRateLimiter 100 (by decide)
      (by decide) (by decide)⟩

/-- C3 counterexample: with `requests_per_minute = 1`, a first call at
`t = 100` is allowed and resets the window timestamp to 100; the next
call at `t = 160` — a gap of exactly 60 seconds, which is "at least 60
seconds" — is denied, because the source only resets when strictly more
than 60 seconds have elapsed. -/
theorem c3_exact_sixty_second_gap_denied :
    (allow newRateLimiter "1.2.3.4" ⟨1, []⟩ 100).2 = true ∧
    (allow newRateLimiter "1.2.3.4" ⟨1, []⟩ 100).1.lastTime "1.2.3.4" = 100 ∧
    60 ≤ 160 - 100 ∧
    (allow (allow newRateLimiter "1.2.3.4" ⟨1, []⟩ 100).1 "1.2.3.4"
        ⟨1, []⟩ 160).2 = false :=
  ⟨rfl, rfl, by omega, rfl⟩

theorem openLoop_failure (cfgs : List ListenerSpec) :
    ∀ s : ServerState, s.running = true →
      (∃ c ∈ cfgs, c.canOpen = false) →
      openLoop cfgs s = (⟨false, [], true⟩, some "failed to start listener") := by
  induction cfgs with
  | nil =>
    intro s _ hex
    obtain ⟨c, hc, _⟩ := hex
    simp at hc
  | cons c rest ih =>
    intro s hrun hex
    by_cases hc : c.canOpen
    · have hex' : ∃ c' ∈ rest, c'.canOpen = false := by
        obtain ⟨c', hc', hfail⟩ := hex
        rcases List.mem_cons.mp hc' with rfl | hmem
        · exact absurd hfail (by simp [hc])
        · exact ⟨c', hmem, hfail⟩
      rw [openLoop, if_pos hc]
      exact ih { s with listeners := s.listeners ++ [c] } hrun hex'
    · rw [openLoop, if_neg hc]
      simp [stop, hrun]

/-- C2 (amended): `Start()` leaves the state untouched when failing
because the server is already running, and rolls the running flag back
to false and closes every listener of the call when some listener fails
to open; but when the TLS certificate/key load fails, `Start()` returns
the error with the running flag already set to true — that one error
path is not rolled back. -/
theorem c2_start_failure_atomicity :
    (∀ (cfgs : List ListenerSpec) (tlsLoadOk : Bool) (s : ServerState),
      s.running = true →
      start cfgs tlsLoadOk s = (s, some "server is already running")) ∧
    (∀ (cfgs : List ListenerSpec) (s : ServerState),
      s.running = false → needsTLS cfgs = true →
      start cfgs false s =
        ({ s with running := true }, some "failed to load TLS certificate")) ∧
    (∀ (cfgs : List ListenerSpec) (tlsLoadOk : Bool) (s : ServerState),
      s.running = false →
      (needsTLS cfgs = true → tlsLoadOk = true) →
      (∃ c ∈ cfgs, c.canOpen = false) →
      start cfgs tlsLoadOk s =
        (⟨false, [], true⟩, some "failed to start listener")) := by
  refine ⟨?_, ?_, ?_⟩
  · intro cfgs tlsLoadOk s h
    simp [start, h]
  · intro cfgs s hrun htls
    simp [start, hrun, htls]
  · intro cfgs tlsLoadOk s hrun himp hex
    have hguard : ¬ (needsTLS cfgs = true ∧ ¬ tlsLoadOk = true) := by
      rintro ⟨h1, h2⟩
      exact h2 (himp h1)
    rw [start, if_neg (by simp [hrun]), if_neg hguard]
    exact openLoop_failure cfgs { s with running := true } rfl hex

theorem c2_start_failure_atomicity_witness :
    start [⟨Encryption.plain, true⟩] true ⟨true, [], false⟩ =
      (⟨true, [], false⟩, some "server is already running") ∧
    start [⟨Encryption.tls, true⟩] false ⟨false, [], false⟩ =
      (⟨true, [], false⟩, some "failed to load TLS certificate") ∧
    start [⟨Encryption.plain, true⟩, ⟨Encryption.plain, false⟩] true
        ⟨false, [], false⟩ =
      (⟨false, [], true⟩, some "failed to start listener") :=
  ⟨c2_start_failure_atomicity.1 [⟨Encryption.plain, true⟩] true
      ⟨true, [], false⟩ rfl,
   c2_start_failure_atomicity.2.1 [⟨Encryption.tls, true⟩]
      ⟨false, [], false⟩ rfl (by decide),
   c2_start_failure_atomicity.2.2
      [⟨Encryption.plain, true⟩, ⟨Encryption.plain, false⟩] true
      ⟨false, [], false⟩ rfl (fun _ => rfl)
      ⟨⟨Encryption.plain, false⟩, by decide, rfl⟩⟩

/-- C2 counterexample: from a stopped server, a `Start()` whose TLS load
fails returns an error yet leaves the running flag set to `true` — the
state is not as before the call, so `Start()` is not failure-atomic on
this path. -/
theorem c2_tls_failure_leaves_running_flag_set :
    (⟨false, [], false⟩ : ServerState).running = false ∧
    (start [⟨Encryption.starttls, true⟩] false ⟨false, [], false⟩).2.isSome =
      true ∧
    (start [⟨Encryption.starttls, true⟩] false ⟨false, [], false⟩).1.running =
      true := by
  refine ⟨rfl, rfl, rfl⟩

theorem enqueue_inv (q : Queue) (id : Nat) (data : List Char) (now : Nat)
    (hInv : QueueInv q) (hp : id ∉ pendingIDs q) (hf : id ∉ failedIDs q) :
    QueueInv (enqueue q id data now).1 ∧
    ((enqueue q id data now).2 = none →
      pendingIDs (enqueue q id data now).1 = pendingIDs q ++ [id] ∧
      failedIDs (enqueue q id data now).1 = failedIDs q) := by
  obtain ⟨hnd, hfd, hdisj⟩ := hInv
  by_cases h : q.maxQueueSize ≤ q.items.length
  · rw [enqueue, if_pos h]
    exact ⟨⟨hnd, hfd, hdisj⟩, by intro hnone; simp at hnone⟩
  · rw [enqueue, if_neg h]
    have hids : pendingIDs { q with items := q.items ++ [⟨id, data, 0, now, now⟩] } =
        pendingIDs q ++ [id] := by
      simp [pendingIDs]
    refine ⟨⟨?_, hfd, ?_⟩, fun _ => ⟨hids, rfl⟩⟩
    · rw [hids]
      simp [List.nodup_append, hnd, hp]
    · intro i hi
      rw [hids] at hi
      rcases List.mem_append.mp hi with hi | hi
      · exact hdisj i hi
      · simp at hi
        subst hi
        exact hf

theorem dequeue_inv (q : Queue) (now : Nat) (hInv : QueueInv q) :
    QueueInv (dequeue q now).1 ∧
    failedIDs (dequeue q now).1 = failedIDs q ∧
    (∀ item, (dequeue q now).2 = .ok item →
      item.id ∈ pendingIDs q ∧ item.id ∉ pendingIDs (dequeue q now).1) := by
  obtain ⟨hnd, hfd, hdisj⟩ := hInv
  unfold dequeue
  cases hex : extractFirst (fun item => item.nextRetry < now) q.items with
  | none =>
    exact ⟨⟨hnd, hfd, hdisj⟩, rfl, by intro item h; simp at h⟩
  | some pr =>
    obtain ⟨item, rest⟩ := pr
    have hperm := extractFirst_perm _ q.items item rest hex
    have hidperm : (pendingIDs q).Perm (item.id :: rest.map QueueItem.id) := by
      simpa [pendingIDs] using hperm.map QueueItem.id
    have hnd' : (item.id :: rest.map QueueItem.id).Nodup :=
      hidperm.nodup_iff.mp hnd
    have hrestids : pendingIDs { q with items := rest } = rest.map QueueItem.id := by
      simp [pendingIDs]
    refine ⟨⟨?_, hfd, ?_⟩, rfl, ?_⟩
    · rw [hrestids]
      exact (List.nodup_cons.mp hnd').2
    · intro i hi
      rw [hrestids] at hi
      exact hdisj i (hidperm.mem_iff.mpr (List.mem_cons_of_mem _ hi))
    · intro it h
      simp only [Except.ok.injEq] at h
      subst h
      refine ⟨hidperm.mem_iff.mpr (List.mem_cons_self ..), ?_⟩
      rw [hrestids]
      exact (List.nodup_cons.mp hnd').1

theorem retry_inv (q : Queue) (item : QueueItem) (now : Nat)
    (hInv : QueueInv q) (hp : item.id ∉ pendingIDs q)
    (hf : item.id ∉ failedIDs q) :
    QueueInv (retry q item now).1 ∧
    ((retry q item now).2 = none →
      item.id ∈ pendingIDs (retry q item now).1 ∧
      item.id ∉ failedIDs (retry q item now).1) ∧
    ((retry q item now).2.isSome →
      item.id ∈ failedIDs (retry q item now).1 ∧
      item.id ∉ pendingIDs (retry q item now).1) := by
  obtain ⟨hnd, hfd, hdisj⟩ := hInv
  by_cases h : q.maxRetries ≤ item.attempts
  · rw [retry, if_pos h]
    have hfids : failedIDs { q with failedItems := q.failedItems ++
        [⟨item, "max retries exceeded", now, item.attempts⟩] } =
        failedIDs q ++ [item.id] := by
      simp [failedIDs]
    refine ⟨⟨hnd, ?_, ?_⟩, by intro hnone; simp at hnone, fun _ => ⟨?_, hp⟩⟩
    · rw [hfids]
      simp [List.nodup_append, hfd, hf]
    · intro i hi
      rw [hfids]
      intro hmem
      rcases List.mem_append.mp hmem with hm | hm
      · exact hdisj i hi hm
      · simp at hm
        subst hm
        exact hp hi
    · rw [hfids]
      simp
  · rw [retry, if_neg h]
    have hids : pendingIDs { q with items := q.items ++
        [{ item with attempts := item.attempts + 1,
                     nextRetry := now + q.retryInterval }] } =
        pendingIDs q ++ [item.id] := by
      simp [pendingIDs]
    refine ⟨⟨?_, hfd, ?_⟩, fun _ => ⟨?_, hf⟩, by intro hsome; simp at hsome⟩
    · rw [hids]
      simp [List.nodup_append, hnd, hp]
    · intro i hi
      rw [hids] at hi
      rcases List.mem_append.mp hi with hi | hi
      · exact hdisj i hi
      · simp at hi
        subst hi
        exact hf
    · rw [hids]
      simp

theorem requeue_inv (q : Queue) (id : Nat) (now : Nat) (hInv : QueueInv q) :
    QueueInv (requeueFailedItem q id now).1 ∧
    ((requeueFailedItem q id now).2 = none →
      id ∈ pendingIDs (requeueFailedItem q id now).1 ∧
      id ∉ failedIDs (requeueFailedItem q id now).1) := by
  obtain ⟨hnd, hfd, hdisj⟩ := hInv
  unfold requeueFailedItem
  cases hex : extractFirst (fun failedItem => failedItem.item.id = id)
      q.failedItems with
  | none =>
    exact ⟨⟨hnd, hfd, hdisj⟩, by intro h; simp at h⟩
  | some pr =>
    obtain ⟨f, rest⟩ := pr
    have hperm := extractFirst_perm _ q.failedItems f rest hex
    have hid : f.item.id = id := by
      have := extractFirst_prop _ q.failedItems f rest hex
      simpa using this
    have hidperm : (failedIDs q).Perm (id :: rest.map (fun g => g.item.id)) := by
      have := hperm.map (fun g => g.item.id)
      rw [List.map_cons, hid] at this
      simpa [failedIDs] using this
    have hnd' : (id :: rest.map (fun g => g.item.id)).Nodup :=
      hidperm.nodup_iff.mp hfd
    have hinfailed : id ∈ failedIDs q :=
      hidperm.mem_iff.mpr (List.mem_cons_self ..)
    have hnotpending : id ∉ pendingIDs q := fun hmem => hdisj id hmem hinfailed
    have hpids : pendingIDs { q with
        items := q.items ++ [{ f.item with attempts := 0, nextRetry := now }],
        failedItems := rest } = pendingIDs q ++ [id] := by
      simp [pendingIDs, hid]
    have hfids : failedIDs { q with
        items := q.items ++ [{ f.item with attempts := 0, nextRetry := now }],
        failedItems := rest } = rest.map (fun g => g.item.id) := by
      simp [failedIDs]
    refine ⟨⟨?_, ?_, ?_⟩, fun _ => ⟨?_, ?_⟩⟩
    · rw [hpids]
      simp [List.nodup_append, hnd, hnotpending]
    · rw [hfids]
      exact (List.nodup_cons.mp hnd').2
    · intro i hi
      rw [hpids] at hi
      rw [hfids]
      rcases List.mem_append.mp hi with hi | hi
      · intro hmem
        exact hdisj i hi (hidperm.mem_iff.mpr (List.mem_cons_of_mem _ hmem))
      · simp at hi
        subst hi
        exact (List.nodup_cons.mp hnd').1
    · rw [hpids]
      simp
    · rw [hfids]
      exact (List.nodup_cons.mp hnd').1

/-- C1: each queue operation preserves the exclusive-membership
invariant — ids are unique in pending and in the failed ledger and no id
is in both — and accounts for every admitted item: `Enqueue` adds the
fresh id to pending only, `Dequeue` hands the removed item to the
caller (it was pending, the ledger is untouched), `Retry` on a
checked-out item puts its id in exactly one of the two collections,
`RequeueFailedItem` moves the id from the ledger to pending, and
`ClearFailedItems` empties the ledger only. -/
theorem c1_pending_failed_exclusive :
    (∀ (q : Queue) (id : Nat) (data : List Char) (now : Nat),
      QueueInv q → id ∉ pendingIDs q → id ∉ failedIDs q →
      QueueInv (enqueue q id data now).1 ∧
      ((enqueue q id data now).2 = none →
        pendingIDs (enqueue q id data now).1 = pendingIDs q ++ [id] ∧
        failedIDs (enqueue q id data now).1 = failedIDs q)) ∧
    (∀ (q : Queue) (now : Nat), QueueInv q →
      QueueInv (dequeue q now).1 ∧
      failedIDs (dequeue q now).1 = failedIDs q ∧
      (∀ item, (dequeue q now).2 = .ok item →
        item.id ∈ pendingIDs q ∧ item.id ∉ pendingIDs (dequeue q now).1)) ∧
    (∀ (q : Queue) (item : QueueItem) (now : Nat),
      QueueInv q → item.id ∉ pendingIDs q → item.id ∉ failedIDs q →
      QueueInv (retry q item now).1 ∧
      ((retry q item now).2 = none →
        item.id ∈ pendingIDs (retry q item now).1 ∧
        item.id ∉ failedIDs (retry q item now).1) ∧
      ((retry q item now).2.isSome →
        item.id ∈ failedIDs (retry q item now).1 ∧
        item.id ∉ pendingIDs (retry q item now).1)) ∧
    (∀ (q : Queue) (id : Nat) (now : Nat), QueueInv q →
      QueueInv (requeueFailedItem q id now).1 ∧
      ((requeueFailedItem q id now).2 = none →
        id ∈ pendingIDs (requeueFailedItem q id now).1 ∧
        id ∉ failedIDs (requeueFailedItem q id now).1)) ∧
    (∀ q : Queue, QueueInv q →
      QueueInv (clearFailedItems q) ∧
      pendingIDs (clearFailedItems q) = pendingIDs q) :=
  ⟨fun q id data now hInv hp hf => enqueue_inv q id data now hInv hp hf,
   fun q now hInv => dequeue_inv q now hInv,
   fun q item now hInv hp hf => retry_inv q item now hInv hp hf,
   fun q id now hInv => requeue_inv q id now hInv,
   fun q hInv =>
     ⟨⟨hInv.1, List.nodup_nil, fun _ _ h => by simp [failedIDs, clearFailedItems] at h⟩,
      rfl⟩⟩

theorem c1_pending_failed_exclusive_witness :
    (QueueInv (enqueue ⟨[⟨1, [], 0, 0, 0⟩],
        [⟨⟨2, [], 2, 0, 0⟩, "max retries exceeded", 5, 2⟩], 2, 10, 5⟩ 3 [] 7).1 ∧
      ((enqueue ⟨[⟨1, [], 0, 0, 0⟩],
          [⟨⟨2, [], 2, 0, 0⟩, "max retries exceeded", 5, 2⟩], 2, 10, 5⟩ 3 [] 7).2 = none →
        pendingIDs (enqueue ⟨[⟨1, [], 0, 0, 0⟩],
          [⟨⟨2, [], 2, 0, 0⟩, "max retries exceeded", 5, 2⟩], 2, 10, 5⟩ 3 [] 7).1 =
          pendingIDs (⟨[⟨1, [], 0, 0, 0⟩],
            [⟨⟨2, [], 2, 0, 0⟩, "max retries exceeded", 5, 2⟩], 2, 10, 5⟩ : Queue) ++ [3] ∧
        failedIDs (enqueue ⟨[⟨1, [], 0, 0, 0⟩],
          [⟨⟨2, [], 2, 0, 0⟩, "max retries exceeded", 5, 2⟩], 2, 10, 5⟩ 3 [] 7).1 =
          failedIDs (⟨[⟨1, [], 0, 0, 0⟩],
            [⟨⟨2, [], 2, 0, 0⟩, "max retries exceeded", 5, 2⟩], 2, 10, 5⟩ : Queue))) ∧
    QueueInv (dequeue ⟨[⟨1, [], 0, 0, 0⟩],
      [⟨⟨2, [], 2, 0, 0⟩, "max retries exceeded", 5, 2⟩], 2, 10, 5⟩ 4).1 ∧
    QueueInv (retry ⟨[⟨1, [], 0, 0, 0⟩],
      [⟨⟨2, [], 2, 0, 0⟩, "max retries exceeded", 5, 2⟩], 2, 10, 5⟩ ⟨3, [], 1, 0, 0⟩ 6).1 ∧
    QueueInv (requeueFailedItem ⟨[⟨1, [], 0, 0, 0⟩],
      [⟨⟨2, [], 2, 0, 0⟩, "max retries exceeded", 5, 2⟩], 2, 10, 5⟩ 2 9).1 ∧
    QueueInv (clearFailedItems ⟨[⟨1, [], 0, 0, 0⟩],
      [⟨⟨2, [], 2, 0, 0⟩, "max retries exceeded", 5, 2⟩], 2, 10, 5⟩) :=
  ⟨c1_pending_failed_exclusive.1 _ 3 [] 7
      (by simp [QueueInv, pendingIDs, failedIDs]) (by decide) (by decide),
   (c1_pending_failed_exclusive.2.1 _ 4
      (by simp [QueueInv, pendingIDs, failedIDs])).1,
   (c1_pending_failed_exclusive.2.2.1 _ ⟨3, [], 1, 0, 0⟩ 6
      (by simp [QueueInv, pendingIDs, failedIDs]) (by decide) (by decide)).1,
   (c1_pending_failed_exclusive.2.2.2.1 _ 2 9
      (by simp [QueueInv, pendingIDs, failedIDs])).1,
   (c1_pending_failed_exclusive.2.2.2.2 _
      (by simp [QueueInv, pendingIDs, failedIDs])).1⟩

end RelayServer
